import Mathlib

/-!
# mackerel-plugin-aws-s3-extended: a shallow embedding of `lib/aws-s3-extended.go`

The Go package queries CloudWatch once per metric group, keeps the latest
datapoint of every answer, copies the configured statistics into a
`map[string]float64`, and post-processes that map.

Conventions of the embedding.

* `float64` values are kept abstract: every definition is generic in the value
  type `α`, and `transformMetrics` only needs its subtraction.  The theorems
  therefore hold for every interpretation of the numbers; examples are run at
  `Int`.
* A Go `map[string]float64` is a finite partial function; it is embedded as
  `String → Option α`, with `make`, index assignment and `delete` as below.
* A `time.Time` carrying a wall-clock reading is embedded as its instant, an
  integer number of nanoseconds counted from the zero `time.Time`
  (January 1, year 1, 00:00:00 UTC).  Instants before the zero time are
  negative.  `t.Before(u)` is `t < u`.
* The fields of a `cloudwatch.Datapoint` are pointers that the SDK leaves nil
  when the answer does not contain them: `Timestamp` (`*time.Time`) and the four
  statistics (`*float64`) are `Option`s.  `latestDp` of the selection loop is a
  `*cloudwatch.Datapoint` that starts as nil: it is an `Option` as well.
  Dereferencing nil panics; a panic ends the run and is recorded with the
  `crashed` constructors.
* The provider (`cloudwatchiface.CloudWatchAPI`) is a function from the request
  to either an error or the list of datapoints.  One run of `FetchMetrics` sends
  eleven requests with eleven different metric names, so a provider with state
  of its own is covered as well.  `time.Now()` is read once per query; the
  `k`-th reading of a run is `clock k`.
* `log.Printf` appends the pair of group and error to the log of the run; the
  formatting of the line is left out.
-/

namespace S3Extended

/-! ## Constants and the data model -/

def namespace_ : String := "AWS/S3"
def metricsTypeAverage : String := "Average"
def metricsTypeSum : String := "Sum"
def metricsTypeMaximum : String := "Maximum"
def metricsTypeMinimum : String := "Minimum"

/-- An instant: nanoseconds counted from the zero `time.Time`. -/
abbrev Time := Int

/-- The zero `time.Time`, the value `new(time.Time)` points to. -/
def zeroTime : Time := 0

/-- One display metric of a group: `metric` of the source (its field `Type` is `Type_` here). -/
structure metric where
  MackerelName : String
  Type_ : String
deriving DecidableEq, Repr

/-- One CloudWatch metric name with its display metrics: `metricsGroup`. -/
structure metricsGroup where
  CloudWatchName : String
  Metrics : List metric
deriving DecidableEq, Repr

/-- The part of `cloudwatch.Datapoint` the package reads. -/
structure Datapoint (α : Type) where
  Timestamp : Option Time
  Average : Option α
  Sum : Option α
  Maximum : Option α
  Minimum : Option α
deriving DecidableEq, Repr

/-- A `cloudwatch.Dimension`. -/
structure Dimension where
  Name : String
  Value : String
deriving DecidableEq, Repr

/-- The fields of `cloudwatch.GetMetricStatisticsInput` the package fills. -/
structure GetMetricStatisticsInput where
  StartTime : Time
  EndTime : Time
  MetricName : String
  Period : Int
  Statistics : List String
  Namespace : String
  Dimensions : List Dimension
deriving DecidableEq, Repr

/-- The provider: one query gives an error or the datapoints of the answer. -/
abbrev CloudWatchAPI (α : Type) := GetMetricStatisticsInput → Except String (List (Datapoint α))

/-- A Go `map[string]float64`. -/
abbrev Stats (α : Type) := String → Option α

/-- The map `make(map[string]float64)`. -/
def Stats.empty {α : Type} : Stats α := fun _ => none

/-- The assignment `stats[k] = v`. -/
def Stats.set {α : Type} (stats : Stats α) (k : String) (v : α) : Stats α :=
  fun key => if key = k then some v else stats key

/-- The statement `delete(stats, k)`. -/
def Stats.delete {α : Type} (stats : Stats α) (k : String) : Stats α :=
  fun key => if key = k then none else stats key

/-- The outcome of code that may panic: it runs to its end, or it stops at a
nil dereference; either way the state reached is kept. -/
inductive Run (σ : Type) where
  | finished (s : σ)
  | crashed (s : σ)
deriving DecidableEq

/-- The outcome of `getLastPointFromCloudWatch`: it returns a datapoint pointer
with a nil error (`ok`), it returns an error (`error`), or it panics (`crashed`). -/
inductive LastPoint (α : Type) where
  | ok (dp : Option (Datapoint α))
  | error (err : String)
  | crashed
deriving DecidableEq

/-- The state a run ended in. -/
def Run.state {σ : Type} : Run σ → σ
  | .finished s => s
  | .crashed s => s

/-- Whether a run reached its end. -/
def Run.isFinished {σ : Type} : Run σ → Bool
  | .finished _ => true
  | .crashed _ => false

/-- The plugin value `S3ExtendedPlugin`; `CloudWatch` is the client `prepare` installs. -/
structure S3ExtendedPlugin (α : Type) where
  BucketName : String
  FilterID : String
  Prefix : String
  AccessKeyID : String
  SecretAccessKey : String
  Region : String
  CloudWatch : CloudWatchAPI α

/-- The method `MetricKeyPrefix`. -/
def MetricKeyPrefix {α : Type} (p : S3ExtendedPlugin α) : String :=
  if p.Prefix = "" then "s3-extented" else p.Prefix

/-! ## `getLastPointFromCloudWatch` -/

/-- The request built at lines 81-102: a window of 180 seconds ending at `now`,
a period of 600 seconds, the statistics of the group, two dimensions. -/
def statisticsInput (bucketName filterID : String) (metric : metricsGroup) (now : Time) :
    GetMetricStatisticsInput :=
  { StartTime := now + 180 * 1000000000 * (-1)
    EndTime := now
    MetricName := metric.CloudWatchName
    Period := 600
    Statistics := metric.Metrics.map (fun typ => typ.Type_)
    Namespace := namespace_
    Dimensions := [⟨"BucketName", bucketName⟩, ⟨"FilterId", filterID⟩] }

/-- One turn of the selection loop (lines 115-122) on the pair `(latest, latestDp)`:
`dp.Timestamp.Before(*latest)` panics on a nil `dp.Timestamp`; a datapoint before
`latest` is skipped, any other one replaces the pair. -/
def latestStep {α : Type} (acc : Time × Option (Datapoint α)) (dp : Datapoint α) :
    Run (Time × Option (Datapoint α)) :=
  match dp.Timestamp with
  | none => .crashed acc
  | some t => if t < acc.1 then .finished acc else .finished (t, some dp)

/-- The selection loop over the datapoints still to visit. -/
def latestLoop {α : Type} :
    List (Datapoint α) → Time × Option (Datapoint α) → Run (Time × Option (Datapoint α))
  | [], acc => .finished acc
  | dp :: rest, acc =>
    match latestStep acc dp with
    | .finished acc1 => latestLoop rest acc1
    | .crashed acc1 => .crashed acc1

/-- The selection loop (lines 113-124): it starts from the zero time and nil and
ends with the pointer `latestDp`, unless it panics. -/
def selectLatest {α : Type} (datapoints : List (Datapoint α)) : Run (Option (Datapoint α)) :=
  match latestLoop datapoints (zeroTime, none) with
  | .finished acc => .finished acc.2
  | .crashed acc => .crashed acc.2

/-- The function `getLastPointFromCloudWatch`: the provider's error, the error
"fetched no datapoints", or the pointer the selection loop ends with; a panic of
the selection loop is a panic of the function. -/
def getLastPointFromCloudWatch {α : Type} (cw : CloudWatchAPI α) (bucketName filterID : String)
    (metric : metricsGroup) (now : Time) : LastPoint α :=
  match cw (statisticsInput bucketName filterID metric now) with
  | .error err => .error err
  | .ok datapoints =>
    if datapoints.length = 0 then .error "fetched no datapoints"
    else
      match selectLatest datapoints with
      | .finished latestDp => .ok latestDp
      | .crashed _ => .crashed

/-! ## `transformMetrics` -/

/-- The function `transformMetrics`. -/
def transformMetrics {α : Type} [Sub α] (stats : Stats α) : Stats α :=
  match stats "TEMPORARY_invocations_total" with
  | some totalCount =>
    let stats1 :=
      match stats "invocations_error" with
      | some errorCount => stats.set "invocations_success" (totalCount - errorCount)
      | none => stats.set "invocations_success" totalCount
    stats1.delete "TEMPORARY_invocations_total"
  | none => stats

/-! ## `mergeStatsFromDatapoint` -/

/-- The assignment `stats[name] = *ptr`: a nil `ptr` panics and leaves the map as it is. -/
def assignDeref {α : Type} (stats : Stats α) (name : String) (ptr : Option α) : Run (Stats α) :=
  match ptr with
  | some v => .finished (stats.set name v)
  | none => .crashed stats

/-- One turn of the loop of `mergeStatsFromDatapoint`: the `switch` on `met.Type`.
`dp` is the pointer handed over by the caller; `dp.Average` on a nil `dp` panics,
and so does `*dp.Average` on a nil field. A kind outside the four cases reads nothing. -/
def mergeStep {α : Type} (dp : Option (Datapoint α)) (stats : Stats α) (met : metric) :
    Run (Stats α) :=
  if met.Type_ = metricsTypeAverage then
    assignDeref stats met.MackerelName (dp.bind (fun d => d.Average))
  else if met.Type_ = metricsTypeSum then
    assignDeref stats met.MackerelName (dp.bind (fun d => d.Sum))
  else if met.Type_ = metricsTypeMaximum then
    assignDeref stats met.MackerelName (dp.bind (fun d => d.Maximum))
  else if met.Type_ = metricsTypeMinimum then
    assignDeref stats met.MackerelName (dp.bind (fun d => d.Minimum))
  else
    .finished stats

/-- The loop of `mergeStatsFromDatapoint` over the metrics still to visit. -/
def mergeLoop {α : Type} (dp : Option (Datapoint α)) : List metric → Stats α → Run (Stats α)
  | [], stats => .finished stats
  | met :: rest, stats =>
    match mergeStep dp stats met with
    | .finished stats1 => mergeLoop dp rest stats1
    | .crashed stats1 => .crashed stats1

/-- The function `mergeStatsFromDatapoint`. -/
def mergeStatsFromDatapoint {α : Type} (stats : Stats α) (dp : Option (Datapoint α))
    (mg : metricsGroup) : Run (Stats α) :=
  mergeLoop dp mg.Metrics stats

/-! ## The static configuration and `FetchMetrics` -/

/-- The table `s3RequestMetricsGroup`. -/
def s3RequestMetricsGroup : List metricsGroup :=
  [ ⟨"GetRequests", [⟨"GetRequests", metricsTypeSum⟩]⟩,
    ⟨"PutRequests", [⟨"PutRequests", metricsTypeSum⟩]⟩,
    ⟨"DeleteRequests", [⟨"DeleteRequests", metricsTypeSum⟩]⟩,
    ⟨"HeadRequests", [⟨"HeadRequests", metricsTypeSum⟩]⟩,
    ⟨"PostRequests", [⟨"PostRequests", metricsTypeSum⟩]⟩,
    ⟨"ListRequests", [⟨"ListRequests", metricsTypeSum⟩]⟩,
    ⟨"4xxErrors", [⟨"4xxErrors", metricsTypeSum⟩]⟩,
    ⟨"5xxErrors", [⟨"5xxErrors", metricsTypeSum⟩]⟩,
    ⟨"BytesDownloaded", [⟨"BytesDownloaded", metricsTypeSum⟩]⟩,
    ⟨"BytesUploaded", [⟨"BytesUploaded", metricsTypeSum⟩]⟩,
    ⟨"TotalRequestLatency",
      [ ⟨"TotalRequestLatencyAvg", metricsTypeAverage⟩,
        ⟨"TotalRequestLatencyMax", metricsTypeMaximum⟩,
        ⟨"TotalRequestLatencyMin", metricsTypeMinimum⟩ ]⟩ ]

/-- What a run of `FetchMetrics` has done so far: the map `stats`, the lines
handed to `log.Printf` (the group and the error, before formatting), and the
requests sent to the provider, oldest first. -/
structure FetchState (α : Type) where
  stats : Stats α
  log : List (metricsGroup × String)
  queries : List GetMetricStatisticsInput

/-- The state `FetchMetrics` starts its loop in. -/
def FetchState.init {α : Type} : FetchState α :=
  { stats := Stats.empty, log := [], queries := [] }

/-- One turn of the loop of `FetchMetrics` (lines 199-204) for the group `met`,
with `now` the reading of `time.Now()` inside `getLastPointFromCloudWatch`. -/
def fetchStep {α : Type} (p : S3ExtendedPlugin α) (now : Time) (st : FetchState α)
    (met : metricsGroup) : Run (FetchState α) :=
  let st1 : FetchState α :=
    { st with queries := st.queries ++ [statisticsInput p.BucketName p.FilterID met now] }
  match getLastPointFromCloudWatch p.CloudWatch p.BucketName p.FilterID met now with
  | .ok v =>
    match mergeStatsFromDatapoint st1.stats v met with
    | .finished stats => .finished { st1 with stats := stats }
    | .crashed stats => .crashed { st1 with stats := stats }
  | .error err => .finished { st1 with log := st1.log ++ [(met, err)] }
  | .crashed => .crashed st1

/-- The loop of `FetchMetrics` over the groups still to visit; `k` counts the
queries already made, so the next one reads `clock k`. -/
def fetchLoop {α : Type} (p : S3ExtendedPlugin α) (clock : Nat → Time) :
    List metricsGroup → Nat → FetchState α → Run (FetchState α)
  | [], _, st => .finished st
  | met :: rest, k, st =>
    match fetchStep p (clock k) st met with
    | .finished st1 => fetchLoop p clock rest (k + 1) st1
    | .crashed st1 => .crashed st1

/-- The method `FetchMetrics`: the returned pair of map and error (the error is
always nil), or `none` when the call panicked. -/
def FetchMetrics {α : Type} [Sub α] (p : S3ExtendedPlugin α) (clock : Nat → Time) :
    Option (Stats α × Option String) :=
  match fetchLoop p clock s3RequestMetricsGroup 0 FetchState.init with
  | .finished st => some (transformMetrics st.stats, none)
  | .crashed _ => none

/-! ## `GraphDefinition` -/

/-- The fields of `mp.Metrics` the package sets. -/
structure Metrics where
  Name : String
  Label : String
  Stacked : Bool
deriving DecidableEq, Repr

/-- The fields of `mp.Graphs` the package sets. -/
structure Graphs where
  Label : String
  Unit : String
  Metrics : List Metrics
deriving DecidableEq, Repr

/-- The method `GraphDefinition`: the entries of the returned map. `title` is
`strings.Title` of the Go standard library. -/
def GraphDefinition {α : Type} (title : String → String) (p : S3ExtendedPlugin α) :
    List (String × Graphs) :=
  let labelPrefix := title p.Prefix
  [ ("requests",
      { Label := labelPrefix ++ " Requests"
        Unit := "integer"
        Metrics :=
          [ ⟨"GetRequests", "Get", true⟩,
            ⟨"PutRequests", "Put", true⟩,
            ⟨"DeleteRequests", "Delete", true⟩,
            ⟨"HeadRequests", "Head", true⟩,
            ⟨"PostRequests", "Post", true⟩,
            ⟨"ListRequests", "List", true⟩ ] }),
    ("errors",
      { Label := labelPrefix ++ " Errors"
        Unit := "integer"
        Metrics := [⟨"4xxErrors", "4xx", false⟩, ⟨"5xxErrors", "5xx", false⟩] }),
    ("bytes",
      { Label := labelPrefix ++ " Bytes"
        Unit := "bytes"
        Metrics :=
          [⟨"BytesDownloaded", "Downloaded", false⟩, ⟨"BytesUploaded", "Uploaded", false⟩] }),
    ("latency",
      { Label := labelPrefix ++ " TotalRequestLatency"
        Unit := "float"
        Metrics :=
          [ ⟨"TotalRequestLatencyAvg", "Average", false⟩,
            ⟨"TotalRequestLatencyMax", "Maximum", false⟩,
            ⟨"TotalRequestLatencyMin", "Minimum", false⟩ ] }) ]

/-! ## Vocabulary of the statements -/

/-- The four statistic kinds the `switch` of `mergeStatsFromDatapoint` knows. -/
def knownType (typ : String) : Bool :=
  typ = metricsTypeAverage || typ = metricsTypeSum || typ = metricsTypeMaximum
    || typ = metricsTypeMinimum

/-- The statistic field of a datapoint that belongs to a kind; nothing for an unknown kind. -/
def Datapoint.statistic {α : Type} (dp : Datapoint α) (typ : String) : Option α :=
  if typ = metricsTypeAverage then dp.Average
  else if typ = metricsTypeSum then dp.Sum
  else if typ = metricsTypeMaximum then dp.Maximum
  else if typ = metricsTypeMinimum then dp.Minimum
  else none

/-- The datapoint carries every statistic a known-kind pair of the list names. -/
def carries {α : Type} (dp : Datapoint α) (mets : List metric) : Prop :=
  ∀ met ∈ mets, knownType met.Type_ = true → (dp.statistic met.Type_).isSome = true

instance carriesDecidable {α : Type} (dp : Datapoint α) (mets : List metric) :
    Decidable (carries dp mets) := by
  unfold carries
  infer_instance

/-- No display-name of `g` is a display-name of `g2`. -/
def disjointNames (g g2 : metricsGroup) : Prop :=
  ∀ met ∈ g.Metrics, ∀ met2 ∈ g2.Metrics, met2.MackerelName ≠ met.MackerelName

instance disjointNamesDecidable (g g2 : metricsGroup) : Decidable (disjointNames g g2) := by
  unfold disjointNames
  infer_instance

/-- What `getLastPointFromCloudWatch` returns for the group `g` when it makes the
`k`-th query of a run of `FetchMetrics`. -/
def queryOf {α : Type} (p : S3ExtendedPlugin α) (clock : Nat → Time) (k : Nat)
    (g : metricsGroup) : LastPoint α :=
  getLastPointFromCloudWatch p.CloudWatch p.BucketName p.FilterID g (clock k)

/-- The `k`-th query, made for `g`, has a usable outcome: `getLastPointFromCloudWatch`
returns an error, or it returns a sample (not nil) that carries each statistic
configured for the group. A panic inside it, or a nil datapoint, is not usable. -/
def usableAnswer {α : Type} (p : S3ExtendedPlugin α) (clock : Nat → Time) (k : Nat)
    (g : metricsGroup) : Bool :=
  match queryOf p clock k g with
  | .ok (some dp) => decide (carries dp g.Metrics)
  | .ok none => false
  | .error _ => true
  | .crashed => false

/-- Every query of the loop over `gs`, numbered from `k`, has a usable outcome. -/
def usableAnswers {α : Type} (p : S3ExtendedPlugin α) (clock : Nat → Time) :
    List metricsGroup → Nat → Bool
  | [], _ => true
  | g :: rest, k => usableAnswer p clock k g && usableAnswers p clock rest (k + 1)

/-- A provider for examples: it answers by metric name. -/
def byName {α : Type} (answer : String → Except String (List (Datapoint α))) : CloudWatchAPI α :=
  fun input => answer input.MetricName

/-- A plugin value for examples around a provider. -/
def pluginOf {α : Type} (cw : CloudWatchAPI α) : S3ExtendedPlugin α :=
  { BucketName := "bucket", FilterID := "filter", Prefix := "s3-extended",
    AccessKeyID := "", SecretAccessKey := "", Region := "", CloudWatch := cw }

/-- A datapoint that carries only `Sum`. -/
def sumPoint {α : Type} (t : Time) (v : α) : Datapoint α :=
  { Timestamp := some t, Average := none, Sum := some v, Maximum := none, Minimum := none }

/-- The provider of the end-to-end example: `GetRequests` has sum 42, `4xxErrors`
has sum 3, every other query fails. -/
def exampleAnswer : String → Except String (List (Datapoint Int)) := fun name =>
  if name = "GetRequests" then .ok [sumPoint 1000 42]
  else if name = "4xxErrors" then .ok [sumPoint 1000 3]
  else .error "throttled"

/-- A datapoint that carries only `Average`. -/
def averagePoint {α : Type} (t : Time) (v : α) : Datapoint α :=
  { Timestamp := some t, Average := some v, Sum := none, Maximum := none, Minimum := none }

/-- A datapoint without a timestamp that carries only `Sum`. -/
def noTimePoint {α : Type} (v : α) : Datapoint α :=
  { Timestamp := none, Average := none, Sum := some v, Maximum := none, Minimum := none }

/-- A provider whose answer for `GetRequests` is a sample with sum 42 and whose
answer for `PutRequests` is a sample without a sum; every other query fails. -/
def lackingAnswer : String → Except String (List (Datapoint Int)) := fun name =>
  if name = "GetRequests" then .ok [sumPoint 1000 42]
  else if name = "PutRequests" then .ok [averagePoint 1000 7]
  else .error "throttled"

/-- A provider whose answer for `GetRequests` is a sample with sum 42 and whose
answer for `PutRequests` is a sample with a sum, one nanosecond before the zero
time; every other query fails. -/
def earlyAnswer : String → Except String (List (Datapoint Int)) := fun name =>
  if name = "GetRequests" then .ok [sumPoint 1000 42]
  else if name = "PutRequests" then .ok [sumPoint (-1) 7]
  else .error "throttled"

/-- The selection loop from any starting pair, on datapoints that all have a
timestamp: either no datapoint reaches the starting instant and the pair is
unchanged, or the loop ends on a datapoint of the list that is not before the
starting instant, with nothing later before it and only strictly earlier
datapoints after it. -/
theorem latestLoop_spec {α : Type} (l : List (Datapoint α)) :
    ∀ (t : Time) (d : Option (Datapoint α)), (∀ x ∈ l, ∃ u, x.Timestamp = some u) →
      ((∀ x ∈ l, ∀ u, x.Timestamp = some u → u < t) ∧
        latestLoop l (t, d) = .finished (t, d)) ∨
      (∃ pre dp post tdp, l = pre ++ dp :: post ∧ dp.Timestamp = some tdp ∧
        latestLoop l (t, d) = .finished (tdp, some dp) ∧ t ≤ tdp ∧
        (∀ x ∈ pre, ∀ u, x.Timestamp = some u → u ≤ tdp) ∧
        (∀ x ∈ post, ∀ u, x.Timestamp = some u → u < tdp)) := by
  induction l with
  | nil => intro t d _; left; exact ⟨by simp, rfl⟩
  | cons x xs ih =>
    intro t d hts
    obtain ⟨ux, hux⟩ := hts x (by simp)
    have htsxs : ∀ y ∈ xs, ∃ u, y.Timestamp = some u := fun y hy => hts y (by simp [hy])
    by_cases hx : ux < t
    · have hstep : latestStep (t, d) x = .finished (t, d) := by simp [latestStep, hux, hx]
      rcases ih t d htsxs with
        ⟨hall, hres⟩ | ⟨pre, dp, post, tdp, hl, hdp, hres, hle, hpre, hpost⟩
      · left
        refine ⟨?_, by simp only [latestLoop, hstep, hres]⟩
        intro y hy u hu
        rcases List.mem_cons.mp hy with rfl | hy
        · have hu2 : ux = u := Option.some.inj (hux.symm.trans hu)
          rw [← hu2]
          exact hx
        · exact hall y hy u hu
      · right
        refine ⟨x :: pre, dp, post, tdp, by simp [hl], hdp,
          by simp only [latestLoop, hstep, hres], hle, ?_, hpost⟩
        intro y hy u hu
        rcases List.mem_cons.mp hy with rfl | hy
        · have hu2 : ux = u := Option.some.inj (hux.symm.trans hu)
          rw [← hu2]
          exact le_of_lt (lt_of_lt_of_le hx hle)
        · exact hpre y hy u hu
    · have hstep : latestStep (t, d) x = .finished (ux, some x) := by
        simp [latestStep, hux, hx]
      rcases ih ux (some x) htsxs with
        ⟨hall, hres⟩ | ⟨pre, dp, post, tdp, hl, hdp, hres, hle, hpre, hpost⟩
      · right
        exact ⟨[], x, xs, ux, by simp, hux, by simp only [latestLoop, hstep, hres],
          not_lt.mp hx, by simp, hall⟩
      · right
        refine ⟨x :: pre, dp, post, tdp, by simp [hl], hdp,
          by simp only [latestLoop, hstep, hres], le_trans (not_lt.mp hx) hle, ?_, hpost⟩
        intro y hy u hu
        rcases List.mem_cons.mp hy with rfl | hy
        · have hu2 : ux = u := Option.some.inj (hux.symm.trans hu)
          rw [← hu2]
          exact hle
        · exact hpre y hy u hu

/-- The selection loop panics as soon as it meets a datapoint without a timestamp. -/
theorem latestLoop_crashes {α : Type} (l : List (Datapoint α)) :
    ∀ (acc : Time × Option (Datapoint α)), (∃ x ∈ l, x.Timestamp = none) →
      ∃ acc2, latestLoop l acc = .crashed acc2 := by
  induction l with
  | nil => intro acc h; obtain ⟨x, hx, _⟩ := h; simp at hx
  | cons y ys ih =>
    intro acc h
    cases hs : latestStep acc y with
    | crashed acc1 => exact ⟨acc1, by simp only [latestLoop, hs]⟩
    | finished acc1 =>
      obtain ⟨x, hx, hnone⟩ := h
      rcases List.mem_cons.mp hx with rfl | hx
      · simp [latestStep, hnone] at hs
      · obtain ⟨acc2, hacc2⟩ := ih acc1 ⟨x, hx, hnone⟩
        exact ⟨acc2, by simp only [latestLoop, hs, hacc2]⟩

/-- When every datapoint has a timestamp and some datapoint is not before the
zero time, the selection loop ends on a datapoint of the list: nothing in the
list is later, and everything after it is strictly earlier. -/
theorem selectLatest_spec {α : Type} (datapoints : List (Datapoint α))
    (hts : ∀ x ∈ datapoints, ∃ u, x.Timestamp = some u)
    (h : ∃ x ∈ datapoints, ∃ u, x.Timestamp = some u ∧ zeroTime ≤ u) :
    ∃ pre dp post t, datapoints = pre ++ dp :: post ∧ dp.Timestamp = some t ∧
      selectLatest datapoints = .finished (some dp) ∧
      (∀ x ∈ pre, ∀ u, x.Timestamp = some u → u ≤ t) ∧
      (∀ x ∈ post, ∀ u, x.Timestamp = some u → u < t) := by
  rcases latestLoop_spec datapoints zeroTime none hts with
    ⟨hall, _⟩ | ⟨pre, dp, post, t, hl, hdp, hres, _, hpre, hpost⟩
  · obtain ⟨x, hx, u, hu, hu0⟩ := h
    exact absurd (hall x hx u hu) (not_lt.mpr hu0)
  · exact ⟨pre, dp, post, t, hl, hdp, by simp only [selectLatest, hres], hpre, hpost⟩

/-- When every datapoint has a timestamp before the zero time, the selection loop
ends on nil. -/
theorem selectLatest_none {α : Type} (datapoints : List (Datapoint α))
    (h : ∀ x ∈ datapoints, ∃ u, x.Timestamp = some u ∧ u < zeroTime) :
    selectLatest datapoints = .finished none := by
  rcases latestLoop_spec datapoints zeroTime none
      (fun x hx => ⟨(h x hx).choose, (h x hx).choose_spec.1⟩) with
    ⟨_, hres⟩ | ⟨pre, dp, post, t, hl, hdp, _, hle, _, _⟩
  · simp only [selectLatest, hres]
  · obtain ⟨u, hu, hu0⟩ := h dp (by simp [hl])
    have hut : u = t := Option.some.inj (hu.symm.trans hdp)
    rw [hut] at hu0
    exact absurd hu0 (not_lt.mpr hle)

/-- C1, evaluated where it fails: for the one-element answer whose sample lies one
nanosecond before the zero time, the selection loop ends on nil, so
`getLastPointFromCloudWatch` returns a nil datapoint with a nil error and no
member of the list is selected. -/
theorem selectLatest_before_zeroTime :
    selectLatest [sumPoint (-1) (7 : Int)] = .finished none ∧
    getLastPointFromCloudWatch (byName (fun _ => .ok [sumPoint (-1) (7 : Int)]))
      "bucket" "filter" ⟨"GetRequests", [⟨"GetRequests", metricsTypeSum⟩]⟩ 5000 = .ok none ∧
    ¬ ∃ dp ∈ [sumPoint (-1) (7 : Int)],
      selectLatest [sumPoint (-1) (7 : Int)] = .finished (some dp) := by
  refine ⟨by decide, by decide, by decide⟩

/-- C2, as stated, fails: of two distinct samples with the same timestamp the
selection loop returns the second, not the first; and on an answer that also
holds a datapoint without a timestamp it returns no sample at all, because
`getLastPointFromCloudWatch` panics. -/
theorem selectLatest_tie_not_first :
    (sumPoint 5 (1 : Int)).Timestamp = (sumPoint 5 (2 : Int)).Timestamp ∧
    selectLatest [sumPoint 5 (1 : Int), sumPoint 5 2] ≠ .finished (some (sumPoint 5 1)) ∧
    selectLatest [sumPoint 5 (1 : Int), sumPoint 5 2] = .finished (some (sumPoint 5 2)) ∧
    getLastPointFromCloudWatch
      (byName (fun _ => .ok [sumPoint 5 (1 : Int), sumPoint 5 2, noTimePoint 3]))
      "bucket" "filter" ⟨"GetRequests", [⟨"GetRequests", metricsTypeSum⟩]⟩ 5000 = .crashed := by
  decide

/-- C2, amended: when the provider answers with a list of samples that all have a
timestamp and of which some sample is not before the zero time,
`getLastPointFromCloudWatch` returns the last sample, in list order, among those
with the greatest timestamp: no sample before it is later, and every sample
after it is strictly earlier. -/
theorem getLastPoint_last_maximum {α : Type} (cw : CloudWatchAPI α)
    (bucketName filterID : String) (metric : metricsGroup) (now : Time)
    (datapoints : List (Datapoint α))
    (hcw : cw (statisticsInput bucketName filterID metric now) = .ok datapoints)
    (hts : ∀ x ∈ datapoints, ∃ u, x.Timestamp = some u)
    (h : ∃ x ∈ datapoints, ∃ u, x.Timestamp = some u ∧ zeroTime ≤ u) :
    ∃ pre dp post t, datapoints = pre ++ dp :: post ∧ dp.Timestamp = some t ∧
      getLastPointFromCloudWatch cw bucketName filterID metric now = .ok (some dp) ∧
      (∀ x ∈ pre, ∀ u, x.Timestamp = some u → u ≤ t) ∧
      (∀ x ∈ post, ∀ u, x.Timestamp = some u → u < t) := by
  obtain ⟨pre, dp, post, t, hl, hdp, hsel, hpre, hpost⟩ := selectLatest_spec datapoints hts h
  refine ⟨pre, dp, post, t, hl, hdp, ?_, hpre, hpost⟩
  have hne : datapoints.length ≠ 0 := by simp [hl]
  simp [getLastPointFromCloudWatch, hcw, hne, hsel]

/-- C2, amended, at the list of two samples with equal timestamps: the second is
returned, and nothing comes after it. -/
theorem getLastPoint_last_maximum_witness :
    ∃ pre dp post t, [sumPoint 5 (1 : Int), sumPoint 5 2] = pre ++ dp :: post ∧
      dp.Timestamp = some t ∧
      getLastPointFromCloudWatch (byName (fun _ => .ok [sumPoint 5 (1 : Int), sumPoint 5 2]))
        "bucket" "filter" ⟨"GetRequests", [⟨"GetRequests", metricsTypeSum⟩]⟩ 5000 = .ok (some dp) ∧
      (∀ x ∈ pre, ∀ u, x.Timestamp = some u → u ≤ t) ∧
      (∀ x ∈ post, ∀ u, x.Timestamp = some u → u < t) :=
  getLastPoint_last_maximum (byName (fun _ => .ok [sumPoint 5 (1 : Int), sumPoint 5 2]))
    "bucket" "filter" ⟨"GetRequests", [⟨"GetRequests", metricsTypeSum⟩]⟩ 5000
    [sumPoint 5 (1 : Int), sumPoint 5 2] rfl
    (by
      intro x hx
      rcases List.mem_cons.mp hx with rfl | hx
      · exact ⟨5, rfl⟩
      · rcases List.mem_cons.mp hx with rfl | hx
        · exact ⟨5, rfl⟩
        · simp at hx)
    ⟨sumPoint 5 1, by simp, 5, rfl, by decide⟩

/-- A datapoint without a timestamp makes `getLastPointFromCloudWatch` panic: the
condition on the timestamps is necessary. -/
theorem getLastPoint_crashes_without_timestamp {α : Type} (cw : CloudWatchAPI α)
    (bucketName filterID : String) (metric : metricsGroup) (now : Time)
    (datapoints : List (Datapoint α))
    (hcw : cw (statisticsInput bucketName filterID metric now) = .ok datapoints)
    (h : ∃ x ∈ datapoints, x.Timestamp = none) :
    getLastPointFromCloudWatch cw bucketName filterID metric now = .crashed := by
  obtain ⟨acc2, hacc2⟩ := latestLoop_crashes datapoints (zeroTime, none) h
  have hne : datapoints.length ≠ 0 := by
    obtain ⟨x, hx, _⟩ := h
    intro h0
    rw [List.length_eq_zero] at h0
    rw [h0] at hx
    simp at hx
  simp [getLastPointFromCloudWatch, hcw, hne, selectLatest, hacc2]

/-! ## `transformMetrics` -/

/-- C3: when the total key is present, the result has no total key, and its
success key holds total minus errors when the errors key is present and total
when it is absent. -/
theorem transformMetrics_total_present {α : Type} [Sub α] (stats : Stats α) (totalCount : α)
    (h : stats "TEMPORARY_invocations_total" = some totalCount) :
    transformMetrics stats "TEMPORARY_invocations_total" = none ∧
    (∀ errorCount, stats "invocations_error" = some errorCount →
      transformMetrics stats "invocations_success" = some (totalCount - errorCount)) ∧
    (stats "invocations_error" = none →
      transformMetrics stats "invocations_success" = some totalCount) := by
  refine ⟨?_, ?_, ?_⟩
  · simp [transformMetrics, h, Stats.delete]
  · intro errorCount he
    simp [transformMetrics, h, he, Stats.delete, Stats.set]
  · intro he
    simp [transformMetrics, h, he, Stats.delete, Stats.set]

/-- C3 at total=100, errors=30: the success key holds 70 and the total key is gone;
and at total=100 alone: the success key holds 100 and the total key is gone. -/
theorem transformMetrics_total_present_witness :
    (transformMetrics (((Stats.empty : Stats Int).set "TEMPORARY_invocations_total" 100).set
        "invocations_error" 30) "TEMPORARY_invocations_total" = none ∧
      transformMetrics (((Stats.empty : Stats Int).set "TEMPORARY_invocations_total" 100).set
        "invocations_error" 30) "invocations_success" = some 70) ∧
    (transformMetrics ((Stats.empty : Stats Int).set "TEMPORARY_invocations_total" 100)
        "TEMPORARY_invocations_total" = none ∧
      transformMetrics ((Stats.empty : Stats Int).set "TEMPORARY_invocations_total" 100)
        "invocations_success" = some 100) :=
  ⟨⟨(transformMetrics_total_present (((Stats.empty : Stats Int).set
      "TEMPORARY_invocations_total" 100).set "invocations_error" 30) 100 (by decide)).1,
    (transformMetrics_total_present (((Stats.empty : Stats Int).set
      "TEMPORARY_invocations_total" 100).set "invocations_error" 30) 100 (by decide)).2.1 30
      (by decide)⟩,
   ⟨(transformMetrics_total_present ((Stats.empty : Stats Int).set
      "TEMPORARY_invocations_total" 100) 100 (by decide)).1,
    (transformMetrics_total_present ((Stats.empty : Stats Int).set
      "TEMPORARY_invocations_total" 100) 100 (by decide)).2.2 (by decide)⟩⟩

/-- On a map without the total key `transformMetrics` changes nothing. -/
theorem transformMetrics_of_total_absent {α : Type} [Sub α] (stats : Stats α)
    (h : stats "TEMPORARY_invocations_total" = none) : transformMetrics stats = stats := by
  simp [transformMetrics, h]

/-- The result of `transformMetrics` never has the total key. -/
theorem transformMetrics_total_absent {α : Type} [Sub α] (stats : Stats α) :
    transformMetrics stats "TEMPORARY_invocations_total" = none := by
  cases h : stats "TEMPORARY_invocations_total" with
  | none => simp [transformMetrics, h]
  | some totalCount => simp [transformMetrics, h, Stats.delete]

/-- C10: `transformMetrics` leaves every key other than the total key and the
success key with its input presence and value; without the total key it returns
the map unchanged; and applying it twice equals applying it once. -/
theorem transformMetrics_frame {α : Type} [Sub α] (stats : Stats α) :
    (∀ key, key ≠ "TEMPORARY_invocations_total" → key ≠ "invocations_success" →
      transformMetrics stats key = stats key) ∧
    (stats "TEMPORARY_invocations_total" = none → transformMetrics stats = stats) ∧
    transformMetrics (transformMetrics stats) = transformMetrics stats := by
  refine ⟨?_, transformMetrics_of_total_absent stats, ?_⟩
  · intro key h1 h2
    cases h : stats "TEMPORARY_invocations_total" with
    | none => simp [transformMetrics, h]
    | some totalCount =>
      cases he : stats "invocations_error" <;>
        simp [transformMetrics, h, he, Stats.delete, Stats.set, h1, h2]
  · exact transformMetrics_of_total_absent _ (transformMetrics_total_absent stats)

/-- C10 at a map with the total key, an errors key, a success key and one more key. -/
theorem transformMetrics_frame_witness :
    transformMetrics ((((Stats.empty : Stats Int).set "TEMPORARY_invocations_total" 100).set
        "invocations_success" 1).set "GetRequests" 42) "GetRequests" = some 42 ∧
    transformMetrics (((Stats.empty : Stats Int).set "invocations_success" 1).set
        "GetRequests" 42) = ((Stats.empty : Stats Int).set "invocations_success" 1).set
        "GetRequests" 42 :=
  ⟨((transformMetrics_frame ((((Stats.empty : Stats Int).set "TEMPORARY_invocations_total"
      100).set "invocations_success" 1).set "GetRequests" 42)).1 "GetRequests" (by decide)
      (by decide)).trans (by decide),
   (transformMetrics_frame (((Stats.empty : Stats Int).set "invocations_success" 1).set
      "GetRequests" 42)).2.1 (by decide)⟩

/-! ## `mergeStatsFromDatapoint` -/

theorem knownType_iff (typ : String) :
    knownType typ = true ↔ typ = metricsTypeAverage ∨ typ = metricsTypeSum ∨
      typ = metricsTypeMaximum ∨ typ = metricsTypeMinimum := by
  simp [knownType, or_assoc]

theorem assignDeref_state_frame {α : Type} (stats : Stats α) (name key : String)
    (ptr : Option α) (h : name ≠ key) : (assignDeref stats name ptr).state key = stats key := by
  cases ptr with
  | none => rfl
  | some v =>
    have h2 : key ≠ name := fun e => h e.symm
    simp [assignDeref, Run.state, Stats.set, h2]

/-- One turn of the merge loop touches no key but the display-name of a known-kind pair. -/
theorem mergeStep_frame {α : Type} (dp : Option (Datapoint α)) (stats : Stats α) (met : metric)
    (key : String) (h : knownType met.Type_ = true → met.MackerelName ≠ key) :
    (mergeStep dp stats met).state key = stats key := by
  unfold mergeStep
  split_ifs with h1 h2 h3 h4
  · exact assignDeref_state_frame _ _ _ _ (h ((knownType_iff _).2 (Or.inl h1)))
  · exact assignDeref_state_frame _ _ _ _ (h ((knownType_iff _).2 (Or.inr (Or.inl h2))))
  · exact assignDeref_state_frame _ _ _ _ (h ((knownType_iff _).2 (Or.inr (Or.inr (Or.inl h3)))))
  · exact assignDeref_state_frame _ _ _ _ (h ((knownType_iff _).2 (Or.inr (Or.inr (Or.inr h4)))))
  · rfl

/-- The merge loop, finished or crashed, touches no key but the display-names of
known-kind pairs. -/
theorem mergeLoop_frame {α : Type} (dp : Option (Datapoint α)) (mets : List metric) :
    ∀ (stats : Stats α) (key : String),
      (∀ met ∈ mets, knownType met.Type_ = true → met.MackerelName ≠ key) →
      (mergeLoop dp mets stats).state key = stats key := by
  induction mets with
  | nil => intro stats key _; rfl
  | cons met rest ih =>
    intro stats key h
    have hstep := mergeStep_frame dp stats met key (h met (by simp))
    cases hs : mergeStep dp stats met with
    | finished stats1 =>
      rw [hs] at hstep
      simp only [mergeLoop, hs]
      rw [ih stats1 key (fun m hm => h m (by simp [hm]))]
      exact hstep
    | crashed stats1 =>
      rw [hs] at hstep
      simp only [mergeLoop, hs]
      exact hstep

/-- A pair with an unknown kind writes nothing and does not fail, whatever the pointer. -/
theorem mergeStep_unknown {α : Type} (dp : Option (Datapoint α)) (stats : Stats α) (met : metric)
    (h : knownType met.Type_ = false) : mergeStep dp stats met = .finished stats := by
  have hn : ¬ (knownType met.Type_ = true) := by simp [h]
  rw [knownType_iff] at hn
  push_neg at hn
  simp [mergeStep, hn.1, hn.2.1, hn.2.2.1, hn.2.2.2]

/-- A pair with a known kind whose statistic the sample carries writes that statistic. -/
theorem mergeStep_known {α : Type} (dp : Datapoint α) (stats : Stats α) (met : metric) (v : α)
    (hv : dp.statistic met.Type_ = some v) :
    mergeStep (some dp) stats met = .finished (stats.set met.MackerelName v) := by
  unfold Datapoint.statistic at hv
  unfold mergeStep
  split_ifs at hv ⊢ with h1 h2 h3 h4
  · simp [assignDeref, hv]
  · simp [assignDeref, hv]
  · simp [assignDeref, hv]
  · simp [assignDeref, hv]

theorem mergeStep_finishes {α : Type} (dp : Datapoint α) (stats : Stats α) (met : metric)
    (h : knownType met.Type_ = true → (dp.statistic met.Type_).isSome = true) :
    ∃ out, mergeStep (some dp) stats met = .finished out := by
  cases hk : knownType met.Type_ with
  | false => exact ⟨stats, mergeStep_unknown _ _ _ hk⟩
  | true =>
    obtain ⟨v, hv⟩ := Option.isSome_iff_exists.mp (h hk)
    exact ⟨_, mergeStep_known dp stats met v hv⟩

/-- On a sample that carries the statistics the list names, the merge loop finishes. -/
theorem mergeLoop_finishes {α : Type} (dp : Datapoint α) (mets : List metric) :
    ∀ (stats : Stats α), carries dp mets → ∃ out, mergeLoop (some dp) mets stats = .finished out := by
  induction mets with
  | nil => intro stats _; exact ⟨stats, rfl⟩
  | cons met rest ih =>
    intro stats hc
    obtain ⟨s1, hs1⟩ := mergeStep_finishes dp stats met (hc met (by simp))
    obtain ⟨out, hout⟩ := ih s1 (fun m hm => hc m (by simp [hm]))
    exact ⟨out, by simp [mergeLoop, hs1, hout]⟩

theorem mergeLoop_append {α : Type} (dp : Option (Datapoint α)) (pre post : List metric) :
    ∀ (stats : Stats α), mergeLoop dp (pre ++ post) stats =
      match mergeLoop dp pre stats with
      | .finished s => mergeLoop dp post s
      | .crashed s => .crashed s := by
  induction pre with
  | nil => intro stats; rfl
  | cons met rest ih =>
    intro stats
    cases hs : mergeStep dp stats met with
    | finished s1 => simp [mergeLoop, hs, ih s1]
    | crashed s1 => simp [mergeLoop, hs]

/-- The last known-kind pair with a display-name decides the value under that name. -/
theorem mergeLoop_last_wins {α : Type} (dp : Datapoint α) (pre post : List metric) (met : metric)
    (stats : Stats α) (hc : carries dp (pre ++ met :: post))
    (hk : knownType met.Type_ = true)
    (hpost : ∀ m ∈ post, knownType m.Type_ = true → m.MackerelName ≠ met.MackerelName) :
    ∃ out, mergeLoop (some dp) (pre ++ met :: post) stats = .finished out ∧
      out met.MackerelName = dp.statistic met.Type_ := by
  obtain ⟨s1, hs1⟩ := mergeLoop_finishes dp pre stats (fun m hm => hc m (by simp [hm]))
  obtain ⟨v, hv⟩ := Option.isSome_iff_exists.mp (hc met (by simp) hk)
  have hstep := mergeStep_known dp s1 met v hv
  obtain ⟨out, hout⟩ := mergeLoop_finishes dp post (s1.set met.MackerelName v)
    (fun m hm => hc m (by simp [hm]))
  have hframe := mergeLoop_frame (some dp) post (s1.set met.MackerelName v) met.MackerelName hpost
  rw [hout] at hframe
  refine ⟨out, ?_, ?_⟩
  · rw [mergeLoop_append, hs1]
    simp [mergeLoop, hstep, hout]
  · rw [hv]
    simpa [Run.state, Stats.set] using hframe

/-- C8, as stated, fails: a sample that does not carry the statistic of a
known-kind pair makes `mergeStatsFromDatapoint` panic instead of returning a map. -/
theorem mergeStatsFromDatapoint_missing_statistic :
    (mergeStatsFromDatapoint (Stats.empty : Stats Int) (some (sumPoint 1000 42))
      ⟨"TotalRequestLatency", [⟨"TotalRequestLatencyAvg", metricsTypeAverage⟩]⟩).isFinished
      = false := by
  decide

/-- C8, amended: for every input map, every metric group and every sample that
carries the statistic of each known-kind pair of the group,
`mergeStatsFromDatapoint` returns a map; a known-kind pair that no later
known-kind pair shares its display-name with maps that name to the sample's
statistic of its kind; pairs of any other kind write nothing; and every key that
no known-kind pair names keeps its input presence and value. -/
theorem mergeStatsFromDatapoint_spec {α : Type} (stats : Stats α) (dp : Datapoint α)
    (mg : metricsGroup) (hc : carries dp mg.Metrics) :
    ∃ out, mergeStatsFromDatapoint stats (some dp) mg = .finished out ∧
      (∀ pre met post, mg.Metrics = pre ++ met :: post → knownType met.Type_ = true →
        (∀ m ∈ post, knownType m.Type_ = true → m.MackerelName ≠ met.MackerelName) →
        out met.MackerelName = dp.statistic met.Type_) ∧
      (∀ key, (∀ met ∈ mg.Metrics, knownType met.Type_ = true → met.MackerelName ≠ key) →
        out key = stats key) := by
  obtain ⟨out, hout⟩ := mergeLoop_finishes dp mg.Metrics stats hc
  refine ⟨out, hout, ?_, ?_⟩
  · intro pre met post hsplit hk hpost
    rw [hsplit] at hc hout
    obtain ⟨out2, hout2, hval⟩ := mergeLoop_last_wins dp pre post met stats hc hk hpost
    rw [hout] at hout2
    cases hout2
    exact hval
  · intro key hkey
    have := mergeLoop_frame (some dp) mg.Metrics stats key hkey
    rw [hout] at this
    exact this

/-- C8, amended, at a sample with sum 42 and a group with a sum pair and a pair of
unknown kind: the sum pair is written, the other one is not. -/
theorem mergeStatsFromDatapoint_spec_witness :
    ∃ out, mergeStatsFromDatapoint ((Stats.empty : Stats Int).set "kept" 1)
        (some (sumPoint 1000 42)) ⟨"GetRequests", [⟨"GetRequests", "Sum"⟩, ⟨"other", "P99"⟩]⟩
        = .finished out ∧
      (∀ pre met post, [(⟨"GetRequests", "Sum"⟩ : metric), ⟨"other", "P99"⟩] = pre ++ met :: post →
        knownType met.Type_ = true →
        (∀ m ∈ post, knownType m.Type_ = true → m.MackerelName ≠ met.MackerelName) →
        out met.MackerelName = (sumPoint 1000 (42 : Int)).statistic met.Type_) ∧
      (∀ key, (∀ met ∈ [(⟨"GetRequests", "Sum"⟩ : metric), ⟨"other", "P99"⟩],
          knownType met.Type_ = true → met.MackerelName ≠ key) →
        out key = ((Stats.empty : Stats Int).set "kept" 1) key) :=
  mergeStatsFromDatapoint_spec ((Stats.empty : Stats Int).set "kept" 1) (sumPoint 1000 42)
    ⟨"GetRequests", [⟨"GetRequests", "Sum"⟩, ⟨"other", "P99"⟩]⟩ (by decide)

/-! ## The loop of `FetchMetrics` -/

theorem fetchStep_error {α : Type} (p : S3ExtendedPlugin α) (clock : Nat → Time) (k : Nat)
    (st : FetchState α) (g : metricsGroup) (e : String) (hq : queryOf p clock k g = .error e) :
    fetchStep p (clock k) st g = .finished
      { stats := st.stats, log := st.log ++ [(g, e)],
        queries := st.queries ++ [statisticsInput p.BucketName p.FilterID g (clock k)] } := by
  unfold queryOf at hq
  simp only [fetchStep, hq]

theorem fetchStep_ok {α : Type} (p : S3ExtendedPlugin α) (clock : Nat → Time) (k : Nat)
    (st : FetchState α) (g : metricsGroup) (v : Option (Datapoint α))
    (hq : queryOf p clock k g = .ok v) :
    fetchStep p (clock k) st g =
      match mergeLoop v g.Metrics st.stats with
      | .finished out => .finished
          { stats := out, log := st.log,
            queries := st.queries ++ [statisticsInput p.BucketName p.FilterID g (clock k)] }
      | .crashed out => .crashed
          { stats := out, log := st.log,
            queries := st.queries ++ [statisticsInput p.BucketName p.FilterID g (clock k)] } := by
  unfold queryOf at hq
  simp only [fetchStep, hq, mergeStatsFromDatapoint]

theorem fetchStep_crashed {α : Type} (p : S3ExtendedPlugin α) (clock : Nat → Time) (k : Nat)
    (st : FetchState α) (g : metricsGroup) (hq : queryOf p clock k g = .crashed) :
    fetchStep p (clock k) st g = .crashed
      { stats := st.stats, log := st.log,
        queries := st.queries ++ [statisticsInput p.BucketName p.FilterID g (clock k)] } := by
  unfold queryOf at hq
  simp only [fetchStep, hq]

/-- One turn of the fetch loop touches no key but the display-names of the
known-kind pairs of its group. -/
theorem fetchStep_frame {α : Type} (p : S3ExtendedPlugin α) (clock : Nat → Time) (k : Nat)
    (st : FetchState α) (g : metricsGroup) (key : String)
    (h : ∀ met ∈ g.Metrics, knownType met.Type_ = true → met.MackerelName ≠ key) :
    (fetchStep p (clock k) st g).state.stats key = st.stats key := by
  cases hq : queryOf p clock k g with
  | error e => rw [fetchStep_error p clock k st g e hq]; rfl
  | crashed => rw [fetchStep_crashed p clock k st g hq]; rfl
  | ok v =>
    rw [fetchStep_ok p clock k st g v hq]
    have hf := mergeLoop_frame v g.Metrics st.stats key h
    cases hm : mergeLoop v g.Metrics st.stats with
    | finished out => rw [hm] at hf; exact hf
    | crashed out => rw [hm] at hf; exact hf

/-- The fetch loop, finished or crashed, touches no key that no group names. -/
theorem fetchLoop_frame {α : Type} (p : S3ExtendedPlugin α) (clock : Nat → Time)
    (gs : List metricsGroup) :
    ∀ (k : Nat) (st : FetchState α) (key : String),
      (∀ g ∈ gs, ∀ met ∈ g.Metrics, knownType met.Type_ = true → met.MackerelName ≠ key) →
      (fetchLoop p clock gs k st).state.stats key = st.stats key := by
  induction gs with
  | nil => intro k st key _; rfl
  | cons head rest ih =>
    intro k st key h
    have hstep := fetchStep_frame p clock k st head key (h head (by simp))
    cases hs : fetchStep p (clock k) st head with
    | finished st1 =>
      rw [hs] at hstep
      simp only [fetchLoop, hs]
      rw [ih (k + 1) st1 key (fun g hg => h g (by simp [hg]))]
      exact hstep
    | crashed st1 =>
      rw [hs] at hstep
      simp only [fetchLoop, hs]
      exact hstep

theorem carries_of_usableAnswer {α : Type} (p : S3ExtendedPlugin α) (clock : Nat → Time) (k : Nat)
    (g : metricsGroup) (dp : Datapoint α) (hu : usableAnswer p clock k g = true)
    (hq : queryOf p clock k g = .ok (some dp)) : carries dp g.Metrics := by
  simpa [usableAnswer, hq] using hu

theorem fetchStep_finishes {α : Type} (p : S3ExtendedPlugin α) (clock : Nat → Time) (k : Nat)
    (st : FetchState α) (g : metricsGroup) (hu : usableAnswer p clock k g = true) :
    ∃ st1, fetchStep p (clock k) st g = .finished st1 := by
  cases hq : queryOf p clock k g with
  | error e => exact ⟨_, fetchStep_error p clock k st g e hq⟩
  | crashed => simp [usableAnswer, hq] at hu
  | ok v =>
    cases v with
    | none => simp [usableAnswer, hq] at hu
    | some dp =>
      obtain ⟨out, hout⟩ := mergeLoop_finishes dp g.Metrics st.stats
        (carries_of_usableAnswer p clock k g dp hu hq)
      exact ⟨_, by rw [fetchStep_ok p clock k st g _ hq, hout]⟩

/-- When every query has a usable outcome, the fetch loop runs to its end. -/
theorem fetchLoop_finishes {α : Type} (p : S3ExtendedPlugin α) (clock : Nat → Time)
    (gs : List metricsGroup) :
    ∀ (k : Nat) (st : FetchState α), usableAnswers p clock gs k = true →
      ∃ st2, fetchLoop p clock gs k st = .finished st2 := by
  induction gs with
  | nil => intro k st _; exact ⟨st, rfl⟩
  | cons head rest ih =>
    intro k st hu
    simp only [usableAnswers, Bool.and_eq_true] at hu
    obtain ⟨st1, hst1⟩ := fetchStep_finishes p clock k st head hu.1
    obtain ⟨st2, hst2⟩ := ih (k + 1) st1 hu.2
    exact ⟨st2, by simp only [fetchLoop, hst1, hst2]⟩

/-- A turn of the fetch loop whose query returns a sample that carries the
statistics of the group writes them under the display-names of the group. -/
theorem fetchStep_value {α : Type} (p : S3ExtendedPlugin α) (clock : Nat → Time) (k : Nat)
    (st : FetchState α) (g : metricsGroup) (dp : Datapoint α)
    (hq : queryOf p clock k g = .ok (some dp)) (hc : carries dp g.Metrics)
    (hnd : (g.Metrics.map (fun met => met.MackerelName)).Nodup) :
    ∃ st1, fetchStep p (clock k) st g = .finished st1 ∧
      ∀ met ∈ g.Metrics, knownType met.Type_ = true →
        st1.stats met.MackerelName = dp.statistic met.Type_ := by
  obtain ⟨out, hout⟩ := mergeLoop_finishes dp g.Metrics st.stats hc
  refine ⟨_, by rw [fetchStep_ok p clock k st g _ hq, hout], ?_⟩
  intro met hmet hk
  obtain ⟨pre, post, hsplit⟩ := List.append_of_mem hmet
  rw [hsplit] at hc hout hnd
  have hpost : ∀ m ∈ post, knownType m.Type_ = true → m.MackerelName ≠ met.MackerelName := by
    intro m hm _ heq
    rw [List.map_append, List.map_cons] at hnd
    have h2 := (List.nodup_cons.mp (List.nodup_append.mp hnd).2.1).1
    exact h2 (List.mem_map.mpr ⟨m, hm, heq⟩)
  obtain ⟨out2, hout2, hval⟩ := mergeLoop_last_wins dp pre post met st.stats hc hk hpost
  rw [hout] at hout2
  cases hout2
  exact hval

/-- When every query has a usable outcome and no two groups share a display-name,
the finished fetch loop holds, under the display-names of a group whose query
returned a sample, the statistics of that sample. -/
theorem fetchLoop_value {α : Type} (p : S3ExtendedPlugin α) (clock : Nat → Time)
    (gs : List metricsGroup) :
    ∀ (k i : Nat) (st : FetchState α) (g : metricsGroup) (dp : Datapoint α),
      usableAnswers p clock gs k = true → gs.Pairwise disjointNames → gs[i]? = some g →
      queryOf p clock (k + i) g = .ok (some dp) →
      (g.Metrics.map (fun met => met.MackerelName)).Nodup →
      ∃ st2, fetchLoop p clock gs k st = .finished st2 ∧
        ∀ met ∈ g.Metrics, knownType met.Type_ = true →
          st2.stats met.MackerelName = dp.statistic met.Type_ := by
  induction gs with
  | nil => intro k i st g dp _ _ hg; simp at hg
  | cons head rest ih =>
    intro k i st g dp hu hp hg hq hnd
    simp only [usableAnswers, Bool.and_eq_true] at hu
    rw [List.pairwise_cons] at hp
    cases i with
    | zero =>
      simp at hg
      subst hg
      rw [Nat.add_zero] at hq
      obtain ⟨st1, hst1, hval⟩ := fetchStep_value p clock k st head dp hq
        (carries_of_usableAnswer p clock k head dp hu.1 hq) hnd
      obtain ⟨st2, hst2⟩ := fetchLoop_finishes p clock rest (k + 1) st1 hu.2
      refine ⟨st2, by simp only [fetchLoop, hst1, hst2], ?_⟩
      intro met hmet hk
      have hf := fetchLoop_frame p clock rest (k + 1) st1 met.MackerelName
        (fun g2 hg2 m2 hm2 _ => hp.1 g2 hg2 met hmet m2 hm2)
      rw [hst2] at hf
      exact hf.trans (hval met hmet hk)
    | succ j =>
      simp at hg
      have hk : k + (j + 1) = k + 1 + j := by omega
      rw [hk] at hq
      obtain ⟨st1, hst1⟩ := fetchStep_finishes p clock k st head hu.1
      obtain ⟨st2, hst2, hval⟩ := ih (k + 1) j st1 g dp hu.2 hp.2 hg hq hnd
      exact ⟨st2, by simp only [fetchLoop, hst1, hst2], hval⟩

/-! ## Facts of the static table -/

theorem s3RequestMetricsGroup_disjoint : s3RequestMetricsGroup.Pairwise disjointNames := by
  decide

theorem s3RequestMetricsGroup_nodup :
    ∀ g ∈ s3RequestMetricsGroup, (g.Metrics.map (fun met => met.MackerelName)).Nodup := by
  decide

theorem s3RequestMetricsGroup_known :
    ∀ g ∈ s3RequestMetricsGroup, ∀ met ∈ g.Metrics, knownType met.Type_ = true := by
  decide

theorem s3RequestMetricsGroup_keys :
    ∀ g ∈ s3RequestMetricsGroup, ∀ met ∈ g.Metrics,
      met.MackerelName ≠ "TEMPORARY_invocations_total" ∧
      met.MackerelName ≠ "invocations_error" ∧
      met.MackerelName ≠ "invocations_success" := by
  decide

/-! ## `FetchMetrics` -/

theorem usableAnswers_at {α : Type} (p : S3ExtendedPlugin α) (clock : Nat → Time)
    (gs : List metricsGroup) :
    ∀ (k i : Nat) (g : metricsGroup), usableAnswers p clock gs k = true → gs[i]? = some g →
      usableAnswer p clock (k + i) g = true := by
  induction gs with
  | nil => intro k i g _ hg; simp at hg
  | cons head rest ih =>
    intro k i g hu hg
    simp only [usableAnswers, Bool.and_eq_true] at hu
    cases i with
    | zero =>
      simp at hg
      subst hg
      exact hu.1
    | succ j =>
      simp at hg
      have hk : k + (j + 1) = k + 1 + j := by omega
      rw [hk]
      exact ih (k + 1) j g hu.2 hg

/-- The map the loop of `FetchMetrics` assembles, finished or crashed, has none of
the three keys `transformMetrics` reads or writes. -/
theorem assembled_keys_absent {α : Type} (p : S3ExtendedPlugin α) (clock : Nat → Time) :
    (fetchLoop p clock s3RequestMetricsGroup 0 FetchState.init).state.stats
        "TEMPORARY_invocations_total" = none ∧
    (fetchLoop p clock s3RequestMetricsGroup 0 FetchState.init).state.stats
        "invocations_error" = none ∧
    (fetchLoop p clock s3RequestMetricsGroup 0 FetchState.init).state.stats
        "invocations_success" = none := by
  refine ⟨?_, ?_, ?_⟩
  · exact fetchLoop_frame p clock s3RequestMetricsGroup 0 FetchState.init _
      (fun g hg met hmet _ => (s3RequestMetricsGroup_keys g hg met hmet).1)
  · exact fetchLoop_frame p clock s3RequestMetricsGroup 0 FetchState.init _
      (fun g hg met hmet _ => (s3RequestMetricsGroup_keys g hg met hmet).2.1)
  · exact fetchLoop_frame p clock s3RequestMetricsGroup 0 FetchState.init _
      (fun g hg met hmet _ => (s3RequestMetricsGroup_keys g hg met hmet).2.2)

/-- When its loop finishes, `FetchMetrics` returns the assembled map and a nil error. -/
theorem FetchMetrics_of_finished {α : Type} [Sub α] (p : S3ExtendedPlugin α)
    (clock : Nat → Time) (st : FetchState α)
    (h : fetchLoop p clock s3RequestMetricsGroup 0 FetchState.init = .finished st) :
    FetchMetrics p clock = some (st.stats, none) := by
  have hk := (assembled_keys_absent p clock).1
  rw [h] at hk
  simp only [FetchMetrics, h]
  rw [transformMetrics_of_total_absent st.stats hk]

/-- Whatever `FetchMetrics` returns is the map its loop assembled, with a nil error. -/
theorem FetchMetrics_returned {α : Type} [Sub α] (p : S3ExtendedPlugin α)
    (clock : Nat → Time) (r : Stats α × Option String) (h : FetchMetrics p clock = some r) :
    r = ((fetchLoop p clock s3RequestMetricsGroup 0 FetchState.init).state.stats, none) := by
  cases hl : fetchLoop p clock s3RequestMetricsGroup 0 FetchState.init with
  | finished st =>
    rw [FetchMetrics_of_finished p clock st hl] at h
    cases h
    rfl
  | crashed st => simp [FetchMetrics, hl] at h

/-- C4, as stated, fails: the query for `GetRequests` succeeds with one sample of
sum 42, and still `FetchMetrics` returns no map, once when the sample of another
group lacks the configured statistic and once when no sample of another group is
selected. -/
theorem FetchMetrics_panics_beside_selected :
    s3RequestMetricsGroup[0]? = some ⟨"GetRequests", [⟨"GetRequests", metricsTypeSum⟩]⟩ ∧
    queryOf (pluginOf (byName lackingAnswer)) (fun _ => 5000) 0
      ⟨"GetRequests", [⟨"GetRequests", metricsTypeSum⟩]⟩ = .ok (some (sumPoint 1000 42)) ∧
    FetchMetrics (pluginOf (byName lackingAnswer)) (fun _ => 5000) = none ∧
    queryOf (pluginOf (byName earlyAnswer)) (fun _ => 5000) 0
      ⟨"GetRequests", [⟨"GetRequests", metricsTypeSum⟩]⟩ = .ok (some (sumPoint 1000 42)) ∧
    FetchMetrics (pluginOf (byName earlyAnswer)) (fun _ => 5000) = none :=
  ⟨rfl, rfl, rfl, rfl, rfl⟩

/-- C4, amended: when every group's `getLastPointFromCloudWatch` returns an error or
a sample that carries the statistics configured for the group, then for every
group of `s3RequestMetricsGroup` whose query succeeds with at least one sample,
`FetchMetrics` returns, with a nil error, a map that holds under each
display-name of the group the configured statistic of the sample the selection
loop picked, whether or not the queries of other groups fail. -/
theorem FetchMetrics_maps_selected {α : Type} [Sub α] (p : S3ExtendedPlugin α)
    (clock : Nat → Time) (i : Nat) (g : metricsGroup) (datapoints : List (Datapoint α))
    (hu : usableAnswers p clock s3RequestMetricsGroup 0 = true)
    (hg : s3RequestMetricsGroup[i]? = some g)
    (hcw : p.CloudWatch (statisticsInput p.BucketName p.FilterID g (clock i)) = .ok datapoints)
    (hne : datapoints ≠ []) :
    ∃ dp m, selectLatest datapoints = .finished (some dp) ∧
      FetchMetrics p clock = some (m, none) ∧
      ∀ met ∈ g.Metrics, m met.MackerelName = dp.statistic met.Type_ ∧
        (dp.statistic met.Type_).isSome = true := by
  have hui := usableAnswers_at p clock s3RequestMetricsGroup 0 i g hu hg
  rw [Nat.zero_add] at hui
  cases hsel : selectLatest datapoints with
  | crashed latestDp =>
    have hq : queryOf p clock i g = .crashed := by
      simp [queryOf, getLastPointFromCloudWatch, hcw, hne, hsel]
    simp [usableAnswer, hq] at hui
  | finished latestDp =>
    have hq : queryOf p clock i g = .ok latestDp := by
      simp [queryOf, getLastPointFromCloudWatch, hcw, hne, hsel]
    cases latestDp with
    | none => simp [usableAnswer, hq] at hui
    | some dp =>
      have hin : g ∈ s3RequestMetricsGroup := List.getElem?_mem hg
      have hq0 : queryOf p clock (0 + i) g = .ok (some dp) := by rw [Nat.zero_add]; exact hq
      obtain ⟨st2, hst2, hval⟩ := fetchLoop_value p clock s3RequestMetricsGroup 0 i
        FetchState.init g dp hu s3RequestMetricsGroup_disjoint hg hq0
        (s3RequestMetricsGroup_nodup g hin)
      refine ⟨dp, st2.stats, rfl, FetchMetrics_of_finished p clock st2 hst2, ?_⟩
      intro met hmet
      have hk := s3RequestMetricsGroup_known g hin met hmet
      exact ⟨hval met hmet hk, carries_of_usableAnswer p clock i g dp hui hq met hmet hk⟩

/-- C4, amended, at the end-to-end example: `GetRequests` has sum 42, `4xxErrors`
has sum 3 and every other query fails; the returned map holds 42 under
`GetRequests` and 3 under `4xxErrors`, with a nil error. -/
theorem FetchMetrics_maps_selected_witness :
    usableAnswers (pluginOf (byName exampleAnswer)) (fun _ => 5000) s3RequestMetricsGroup 0
      = true ∧
    ∃ m, FetchMetrics (pluginOf (byName exampleAnswer)) (fun _ => 5000) = some (m, none) ∧
      m "GetRequests" = some 42 ∧ m "4xxErrors" = some 3 := by
  refine ⟨by decide, ?_⟩
  obtain ⟨dp, m, hsel, hm, hval⟩ :=
    FetchMetrics_maps_selected (pluginOf (byName exampleAnswer)) (fun _ => 5000) 0
      ⟨"GetRequests", [⟨"GetRequests", metricsTypeSum⟩]⟩ [sumPoint 1000 42]
      (by decide) (by decide) rfl (by decide)
  obtain ⟨dp2, m2, hsel2, hm2, hval2⟩ :=
    FetchMetrics_maps_selected (pluginOf (byName exampleAnswer)) (fun _ => 5000) 6
      ⟨"4xxErrors", [⟨"4xxErrors", metricsTypeSum⟩]⟩ [sumPoint 1000 3]
      (by decide) (by decide) rfl (by decide)
  have hdp : dp = sumPoint 1000 42 := by
    have h : selectLatest [sumPoint 1000 (42 : Int)] = .finished (some (sumPoint 1000 42)) := by
      decide
    rw [h] at hsel
    exact (Option.some.inj (Run.finished.inj hsel)).symm
  have hdp2 : dp2 = sumPoint 1000 3 := by
    have h : selectLatest [sumPoint 1000 (3 : Int)] = .finished (some (sumPoint 1000 3)) := by
      decide
    rw [h] at hsel2
    exact (Option.some.inj (Run.finished.inj hsel2)).symm
  have hmm : m2 = m := by
    rw [hm] at hm2
    exact (congrArg Prod.fst (Option.some.inj hm2)).symm
  subst hdp hdp2 hmm
  refine ⟨m2, hm, ?_, ?_⟩
  · exact (hval ⟨"GetRequests", metricsTypeSum⟩ (by simp)).1.trans (by decide)
  · exact (hval2 ⟨"4xxErrors", metricsTypeSum⟩ (by simp)).1.trans (by decide)

theorem mergeLoop_finished_carries {α : Type} (dp : Datapoint α) (mets : List metric) :
    ∀ (stats out : Stats α), mergeLoop (some dp) mets stats = .finished out → carries dp mets := by
  induction mets with
  | nil => intro stats out _ met hmet; simp at hmet
  | cons head rest ih =>
    intro stats out h met hmet hk
    cases hs : mergeStep (some dp) stats head with
    | crashed s1 => simp [mergeLoop, hs] at h
    | finished s1 =>
      simp only [mergeLoop, hs] at h
      rcases List.mem_cons.mp hmet with rfl | hrest
      · cases hv : dp.statistic met.Type_ with
        | some v => rfl
        | none =>
          exfalso
          rw [knownType_iff] at hk
          unfold Datapoint.statistic at hv
          unfold mergeStep at hs
          split_ifs at hv hs with h1 h2 h3 h4 <;> simp_all [assignDeref]
      · exact ih s1 out h met hrest hk

theorem mergeLoop_nil_finished {α : Type} (mets : List metric) :
    ∀ (stats out : Stats α), mergeLoop none mets stats = .finished out →
      ∀ met ∈ mets, knownType met.Type_ = false := by
  induction mets with
  | nil => intro stats out _ met hmet; simp at hmet
  | cons head rest ih =>
    intro stats out h met hmet
    cases hs : mergeStep (none : Option (Datapoint α)) stats head with
    | crashed s1 => simp [mergeLoop, hs] at h
    | finished s1 =>
      simp only [mergeLoop, hs] at h
      rcases List.mem_cons.mp hmet with rfl | hrest
      · cases hk : knownType met.Type_ with
        | false => rfl
        | true =>
          exfalso
          rw [knownType_iff] at hk
          unfold mergeStep at hs
          split_ifs at hs with h1 h2 h3 h4 <;> simp_all [assignDeref]
      · exact ih s1 out h met hrest

/-- A turn of the fetch loop for a group with a known-kind pair finishes only on a
usable outcome of its query. -/
theorem fetchStep_finished_usable {α : Type} (p : S3ExtendedPlugin α) (clock : Nat → Time)
    (k : Nat) (st st1 : FetchState α) (g : metricsGroup)
    (hknown : ∃ met ∈ g.Metrics, knownType met.Type_ = true)
    (hs : fetchStep p (clock k) st g = .finished st1) : usableAnswer p clock k g = true := by
  cases hq : queryOf p clock k g with
  | error e => simp [usableAnswer, hq]
  | crashed =>
    rw [fetchStep_crashed p clock k st g hq] at hs
    cases hs
  | ok v =>
    rw [fetchStep_ok p clock k st g v hq] at hs
    cases hm : mergeLoop v g.Metrics st.stats with
    | crashed out => rw [hm] at hs; cases hs
    | finished out =>
      cases v with
      | none =>
        obtain ⟨met, hmet, hk⟩ := hknown
        have := mergeLoop_nil_finished g.Metrics st.stats out hm met hmet
        rw [hk] at this
        cases this
      | some dp =>
        have hc := mergeLoop_finished_carries dp g.Metrics st.stats out hm
        simp [usableAnswer, hq, hc]

/-- The fetch loop over groups that all have a known-kind pair finishes only when
every query has a usable outcome. -/
theorem fetchLoop_finished_usable {α : Type} (p : S3ExtendedPlugin α) (clock : Nat → Time)
    (gs : List metricsGroup) :
    ∀ (k : Nat) (st st2 : FetchState α),
      (∀ g ∈ gs, ∃ met ∈ g.Metrics, knownType met.Type_ = true) →
      fetchLoop p clock gs k st = .finished st2 → usableAnswers p clock gs k = true := by
  induction gs with
  | nil => intro k st st2 _ _; rfl
  | cons head rest ih =>
    intro k st st2 hknown h
    cases hs : fetchStep p (clock k) st head with
    | crashed st1 => simp [fetchLoop, hs] at h
    | finished st1 =>
      simp only [fetchLoop, hs] at h
      simp only [usableAnswers, Bool.and_eq_true]
      exact ⟨fetchStep_finished_usable p clock k st st1 head (hknown head (by simp)) hs,
        ih (k + 1) st1 st2 (fun g hg => hknown g (by simp [hg])) h⟩

/-- `FetchMetrics` returns only when every query has a usable outcome: the
condition of the amended statements is necessary. -/
theorem FetchMetrics_returns_only_if_usable {α : Type} [Sub α] (p : S3ExtendedPlugin α)
    (clock : Nat → Time) (r : Stats α × Option String) (h : FetchMetrics p clock = some r) :
    usableAnswers p clock s3RequestMetricsGroup 0 = true := by
  cases hl : fetchLoop p clock s3RequestMetricsGroup 0 FetchState.init with
  | crashed st => simp [FetchMetrics, hl] at h
  | finished st =>
    exact fetchLoop_finished_usable p clock s3RequestMetricsGroup 0 FetchState.init st
      (by decide) hl

/-- C6, as stated, fails: `FetchMetrics` returns nothing, because it panics, when
the provider answers every query with one sample that lacks the configured
statistic, and also when it answers every query with one sample that lies
before the zero time. -/
theorem FetchMetrics_panics :
    FetchMetrics (pluginOf (byName (fun _ => .ok [averagePoint 1000 (7 : Int)])))
      (fun _ => 5000) = none ∧
    FetchMetrics (pluginOf (byName (fun _ => .ok [sumPoint (-1) (7 : Int)])))
      (fun _ => 5000) = none :=
  ⟨rfl, rfl⟩

/-- C6, amended: whatever the provider does (each query may fail, return zero
samples, or return a list of samples), provided each group's
`getLastPointFromCloudWatch` returns an error or a sample that carries the
statistics configured for the group, `FetchMetrics` returns a map together with
a nil error. -/
theorem FetchMetrics_never_fails {α : Type} [Sub α] (p : S3ExtendedPlugin α)
    (clock : Nat → Time) (hu : usableAnswers p clock s3RequestMetricsGroup 0 = true) :
    ∃ m, FetchMetrics p clock = some (m, none) := by
  obtain ⟨st, hst⟩ := fetchLoop_finishes p clock s3RequestMetricsGroup 0 FetchState.init hu
  exact ⟨st.stats, FetchMetrics_of_finished p clock st hst⟩

/-- C6, amended, at the provider whose every query fails and at the provider whose
every answer is empty: a map is returned with a nil error. -/
theorem FetchMetrics_never_fails_witness :
    (∃ m, FetchMetrics (pluginOf (byName (fun _ => (.error "down" :
      Except String (List (Datapoint Int)))))) (fun _ => 5000) = some (m, none)) ∧
    (∃ m, FetchMetrics (pluginOf (byName (fun _ => (.ok [] :
      Except String (List (Datapoint Int)))))) (fun _ => 5000) = some (m, none)) :=
  ⟨FetchMetrics_never_fails _ _ (by decide), FetchMetrics_never_fails _ _ (by decide)⟩

/-- C9: no display-name of `s3RequestMetricsGroup` is the total key or the errors
key of `transformMetrics`; hence, whatever the provider does, `transformMetrics`
is the identity on the map the loop of `FetchMetrics` assembles, and a map
`FetchMetrics` returns is that map and has no success key. -/
theorem transformMetrics_identity_on_assembled {α : Type} [Sub α] (p : S3ExtendedPlugin α)
    (clock : Nat → Time) :
    (∀ g ∈ s3RequestMetricsGroup, ∀ met ∈ g.Metrics,
      met.MackerelName ≠ "TEMPORARY_invocations_total" ∧
      met.MackerelName ≠ "invocations_error") ∧
    transformMetrics (fetchLoop p clock s3RequestMetricsGroup 0 FetchState.init).state.stats
      = (fetchLoop p clock s3RequestMetricsGroup 0 FetchState.init).state.stats ∧
    (∀ m err, FetchMetrics p clock = some (m, err) →
      m = (fetchLoop p clock s3RequestMetricsGroup 0 FetchState.init).state.stats ∧
      m "invocations_success" = none) := by
  refine ⟨fun g hg met hmet => ⟨(s3RequestMetricsGroup_keys g hg met hmet).1,
    (s3RequestMetricsGroup_keys g hg met hmet).2.1⟩, ?_, ?_⟩
  · exact transformMetrics_of_total_absent _ (assembled_keys_absent p clock).1
  · intro m err h
    have hr := FetchMetrics_returned p clock (m, err) h
    have hm : m = (fetchLoop p clock s3RequestMetricsGroup 0 FetchState.init).state.stats :=
      congrArg Prod.fst hr
    exact ⟨hm, by rw [hm]; exact (assembled_keys_absent p clock).2.2⟩

/-- C9 at the end-to-end example: `FetchMetrics` returns a map, and it has no
success key. -/
theorem transformMetrics_identity_on_assembled_witness :
    (FetchMetrics (pluginOf (byName exampleAnswer)) (fun _ => 5000)).isSome = true ∧
    ∀ m err, FetchMetrics (pluginOf (byName exampleAnswer)) (fun _ => 5000) = some (m, err) →
      m "invocations_success" = none :=
  ⟨by decide, fun m err h =>
    ((transformMetrics_identity_on_assembled (pluginOf (byName exampleAnswer))
      (fun _ => 5000)).2.2 m err h).2⟩

/-! ## `GraphDefinition` -/

/-- C7: for every configured prefix, every series name of every graph group that
`GraphDefinition` returns is the display-name of some metric of some group of
`s3RequestMetricsGroup`. -/
theorem GraphDefinition_names_configured {α : Type} (title : String → String)
    (p : S3ExtendedPlugin α) (entry : String × Graphs) (series : Metrics)
    (hentry : entry ∈ GraphDefinition title p) (hseries : series ∈ entry.2.Metrics) :
    ∃ g ∈ s3RequestMetricsGroup, ∃ met ∈ g.Metrics, met.MackerelName = series.Name := by
  simp only [GraphDefinition, List.mem_cons, List.mem_singleton, List.not_mem_nil, or_false]
    at hentry
  rcases hentry with rfl | rfl | rfl | rfl <;>
    simp only [List.mem_cons, List.mem_singleton, List.not_mem_nil, or_false] at hseries <;>
    rcases hseries with rfl | rfl | rfl | rfl | rfl | rfl <;> decide

/-- C7 at the series `4xxErrors` of the graph group `errors`. -/
theorem GraphDefinition_names_configured_witness :
    ∃ g ∈ s3RequestMetricsGroup, ∃ met ∈ g.Metrics, met.MackerelName = "4xxErrors" :=
  GraphDefinition_names_configured id (pluginOf (byName exampleAnswer))
    ("errors", ⟨"s3-extended Errors", "integer", [⟨"4xxErrors", "4xx", false⟩,
      ⟨"5xxErrors", "5xx", false⟩]⟩) ⟨"4xxErrors", "4xx", false⟩ (by decide) (by decide)

end S3Extended
